import Mathlib

/-!
Verification of the USD1 daily-report pipeline.

This file shallowly embeds the programs data model and operations in Lean 4
and proves the specification claims about them.

Modelling conventions:
- Python floats are modelled as exact rationals (ℚ); formatting with
  Pythons "{:.2f}" is modelled as decimal rounding half-to-even of the
  exact rational value.
- JSON values are a tagged inductive (null / bool / number / string /
  array / object).
- Operations that can raise in Python return Except String; the message is
  the Python exception class name.  Network fetches are modelled by passing
  each endpoints outcome (parsed JSON or a raised exception) as an explicit
  Except String Json argument; a timeout, malformed body, or exhausted
  retries all surface as the error case.
- Arithmetic on ℚ is written with the kernel-computable helpers qAdd, qSub,
  qMul, qDiv, qNeg (mkRat-based); they are proved equal to the Mathlib
  operations below, so theorems can be stated with ordinary + - * /.
- String .upper()/.lower() are modelled on ASCII letters.
-/

/-- Numeric helper: floor of a rational, computed on num/den so the kernel
can evaluate it. -/
def ratFloorZ (q : ℚ) : ℤ := Int.fdiv q.num (Int.ofNat q.den)

/-- Round a rational to the nearest integer, ties to even (the rounding used
by Python float formatting and by round()). -/
def roundHalfEven (q : ℚ) : ℤ :=
  let f := ratFloorZ q
  let twice := 2 * (q.num - f * (q.den : ℤ))
  if twice < (q.den : ℤ) then f
  else if (q.den : ℤ) < twice then f + 1
  else if f % 2 = 0 then f else f + 1

/-- Kernel-computable rational addition (see qAdd_eq). -/
def qAdd (a b : ℚ) : ℚ := mkRat (a.num * b.den + b.num * a.den) (a.den * b.den)

/-- Kernel-computable rational subtraction (see qSub_eq). -/
def qSub (a b : ℚ) : ℚ := mkRat (a.num * b.den - b.num * a.den) (a.den * b.den)

/-- Kernel-computable rational multiplication (see qMul_eq). -/
def qMul (a b : ℚ) : ℚ := mkRat (a.num * b.num) (a.den * b.den)

/-- Kernel-computable rational division (see qDiv_eq). -/
def qDiv (a b : ℚ) : ℚ := Rat.divInt (a.num * b.den) (a.den * b.num)

/-- Kernel-computable rational negation (see qNeg_eq). -/
def qNeg (a : ℚ) : ℚ := mkRat (-a.num) a.den

/-- Left-pad a string with zeros to the given width. -/
def padZeros (width : ℕ) (s : String) : String :=
  String.mk (List.replicate (width - s.length) '0') ++ s

/-- Pythons fixed-point float formatting "{q:.d f}": round half-to-even at
d decimal digits and render with exactly d digits after the point
(no point when d = 0). -/
def formatFixed (decimals : ℕ) (q : ℚ) : String :=
  let scale : ℕ := 10 ^ decimals
  let n := roundHalfEven (qMul q (mkRat (Int.ofNat scale) 1))
  let sign := if n < 0 then "-" else ""
  let m := n.natAbs
  if decimals = 0 then sign ++ toString (m / scale)
  else sign ++ toString (m / scale) ++ "." ++ padZeros decimals (toString (m % scale))

/-- Pythons int() truncation toward zero on a rational. -/
def pyInt (q : ℚ) : ℤ := Int.tdiv q.num (Int.ofNat q.den)

/-- Pythons round(x, 2): banker-rounds to two decimal places. -/
def pyRound2 (q : ℚ) : ℚ := mkRat (roundHalfEven (qMul q (mkRat 100 1))) 100

/-- ASCII upper-casing of one character (model of str.upper). -/
def charUpper (c : Char) : Char :=
  if 'a' ≤ c && c ≤ 'z' then Char.ofNat (c.toNat - 32) else c

/-- ASCII lower-casing of one character (model of str.lower). -/
def charLower (c : Char) : Char :=
  if 'A' ≤ c && c ≤ 'Z' then Char.ofNat (c.toNat + 32) else c

/-- Model of Python str.upper (ASCII). -/
def strUpper (s : String) : String := String.mk (s.data.map charUpper)

/-- Model of Python str.lower (ASCII). -/
def strLower (s : String) : String := String.mk (s.data.map charLower)

/-- Does the character list start with the given pattern? -/
def startsWithChars : List Char → List Char → Bool
  | [], _ => true
  | _ :: _, [] => false
  | a :: as, b :: bs => a == b && startsWithChars as bs

/-- Does the character list contain the pattern as a contiguous run? -/
def containsChars (pat : List Char) : List Char → Bool
  | [] => startsWithChars pat []
  | c :: rest => startsWithChars pat (c :: rest) || containsChars pat rest

/-- Model of the Python substring test: pat in s. -/
def strContains (s pat : String) : Bool := containsChars pat.data s.data

/-- Tagged JSON value, the shape of every parsed upstream response. -/
inductive Json where
  | null
  | bool (b : Bool)
  | num (q : ℚ)
  | str (s : String)
  | arr (items : List Json)
  | obj (entries : List (String × Json))

/-- Lookup in a JSON object: Python dict.get(key) on a parsed object
(string keys; first binding wins, objects are well-formed so keys are
unique). -/
def objGet (entries : List (String × Json)) (key : String) : Option Json :=
  (entries.find? (fun e => e.1 = key)).map (fun e => e.2)

/-- Python truthiness of a JSON value. -/
def pyFalsy : Json → Bool
  | Json.null => true
  | Json.bool b => !b
  | Json.num q => q.num = 0
  | Json.str s => s.data.isEmpty
  | Json.arr items => items.isEmpty
  | Json.obj entries => entries.isEmpty

/-- Python `a or b`. -/
def pyOr (a b : Json) : Json := if pyFalsy a then b else a

/-- Python `x.get(key)`: AttributeError unless x is a dict. -/
def pyGet (j : Json) (key : String) : Except String (Option Json) :=
  match j with
  | Json.obj entries => Except.ok (objGet entries key)
  | _ => Except.error "AttributeError"

/-- Python `x.get(key, default)`: AttributeError unless x is a dict. -/
def pyGetD (j : Json) (key : String) (dflt : Json) : Except String Json :=
  match j with
  | Json.obj entries => Except.ok ((objGet entries key).getD dflt)
  | _ => Except.error "AttributeError"

/-- Python subscript `x[key]` with a string key: KeyError when missing,
TypeError when x is not a dict. -/
def pySubscript (j : Json) (key : String) : Except String Json :=
  match j with
  | Json.obj entries =>
    match objGet entries key with
    | some v => Except.ok v
    | none => Except.error "KeyError"
  | _ => Except.error "TypeError"

/-- Python `x.upper()`: AttributeError unless x is a string. -/
def pyUpper (j : Json) : Except String String :=
  match j with
  | Json.str s => Except.ok (strUpper s)
  | _ => Except.error "AttributeError"

/-- Python `x.lower()`: AttributeError unless x is a string. -/
def pyLower (j : Json) : Except String String :=
  match j with
  | Json.str s => Except.ok (strLower s)
  | _ => Except.error "AttributeError"

/-- Python iteration `for x in j`: lists yield items, dicts yield their keys,
strings yield their characters, anything else raises TypeError. -/
def pyIter (j : Json) : Except String (List Json) :=
  match j with
  | Json.arr items => Except.ok items
  | Json.obj entries => Except.ok (entries.map (fun e => Json.str e.1))
  | Json.str s => Except.ok (s.data.map (fun c => Json.str (String.mk [c])))
  | _ => Except.error "TypeError"

/-- Python equality of a JSON value with a string literal. -/
def jsonEqStr (j : Json) (s : String) : Bool :=
  match j with
  | Json.str t => t = s
  | _ => false

/-- Digit run split: leading decimal digits and the remainder. -/
def splitDigits : List Char → (List Char × List Char)
  | [] => ([], [])
  | c :: rest =>
    if c.isDigit then
      let (ds, r) := splitDigits rest
      (c :: ds, r)
    else ([], c :: rest)

/-- Decimal digits to a natural number. -/
def digitsToNat (ds : List Char) : ℕ :=
  ds.foldl (fun acc c => 10 * acc + (c.toNat - 48)) 0

/-- Optional exponent suffix of a Python float literal (e / E with optional
sign); returns none when malformed or trailing characters remain. -/
def applyExpPart (base : ℚ) (cs : List Char) : Option ℚ :=
  match cs with
  | [] => some base
  | c :: rest =>
    if c = 'e' ∨ c = 'E' then
      let signRest : Bool × List Char :=
        match rest with
        | '+' :: r => (false, r)
        | '-' :: r => (true, r)
        | r => (false, r)
      let (ds, rest3) := splitDigits signRest.2
      if ds.isEmpty then none
      else if !rest3.isEmpty then none
      else if signRest.1 then some (qMul base (mkRat 1 (10 ^ digitsToNat ds)))
      else some (qMul base (mkRat (Int.ofNat (10 ^ digitsToNat ds)) 1))
    else none

/-- Unsigned part of a Python float literal: digits with optional fraction,
or fraction only, with optional exponent. -/
def parseUnsignedFloat (cs : List Char) : Option ℚ :=
  let (ip, rest) := splitDigits cs
  match rest with
  | '.' :: rest2 =>
    let (fp, rest3) := splitDigits rest2
    if ip.isEmpty && fp.isEmpty then none
    else applyExpPart
      (mkRat (Int.ofNat (digitsToNat ip * 10 ^ fp.length + digitsToNat fp)) (10 ^ fp.length))
      rest3
  | _ =>
    if ip.isEmpty then none
    else applyExpPart (mkRat (Int.ofNat (digitsToNat ip)) 1) rest

/-- Model of Python float(s) on a string: numeric literals parse to their
exact value, anything else fails.  (Surrounding whitespace, underscores,
inf and nan are not modelled; no caller relies on them.) -/
def parsePyFloat (s : String) : Option ℚ :=
  match s.data with
  | '+' :: rest => parseUnsignedFloat rest
  | '-' :: rest => (parseUnsignedFloat rest).map qNeg
  | cs => parseUnsignedFloat cs

/-- Model of the try float(value) except pattern: numbers pass through,
bools are 1/0, numeric strings parse, everything else is None. -/
def pyFloat : Json → Option ℚ
  | Json.num q => some q
  | Json.str s => parsePyFloat s
  | Json.bool b => some (if b then mkRat 1 1 else mkRat 0 1)
  | _ => none

/-- Shared adapter helper _to_float(val): None stays None, otherwise
float(val) with exceptions converted to None. -/
def _to_float (v : Option Json) : Option ℚ :=
  match v with
  | none => none
  | some j => pyFloat j

/-- Hashable Python dict key (Python bools hash like their numeric value). -/
inductive HKey where
  | null
  | num (q : ℚ)
  | str (s : String)
deriving DecidableEq

/-- Convert a JSON value to a dict key; lists and dicts are unhashable. -/
def toHKey : Json → Except String HKey
  | Json.null => Except.ok HKey.null
  | Json.bool b => Except.ok (HKey.num (if b then mkRat 1 1 else mkRat 0 1))
  | Json.num q => Except.ok (HKey.num q)
  | Json.str s => Except.ok (HKey.str s)
  | _ => Except.error "TypeError"

/-- A Python dict built at runtime with non-string keys. -/
def PyDict : Type := List (HKey × Json)

/-- Python `d[k] = v`: replace an existing binding or append. -/
def dictInsert (d : PyDict) (k : HKey) (v : Json) : PyDict :=
  match d with
  | [] => [(k, v)]
  | e :: rest => if e.1 = k then (k, v) :: rest else e :: dictInsert rest k v

/-- Python `d.get(k)` on a runtime dict. -/
def dictGetH (d : PyDict) (k : HKey) : Option Json :=
  match d with
  | [] => none
  | e :: rest => if e.1 = k then some e.2 else dictGetH rest k

/- ===================== src/util/parse.py ===================== -/

/-- Key argument of safe_get: a string key or an integer index. -/
inductive PyKey where
  | str (s : String)
  | int (i : ℤ)

/-- safe_get(obj, *keys, default): walk the path, defaulting at every
failure point (util/parse.py lines 6-31). -/
def safe_get (obj : Json) (keys : List PyKey) (default : Json) : Json :=
  match keys with
  | [] => obj
  | key :: rest =>
    match obj with
    | Json.null => default
    | Json.obj entries =>
      match key with
      | PyKey.str s => safe_get ((objGet entries s).getD default) rest default
      | PyKey.int _ => safe_get default rest default
    | Json.arr items =>
      match key with
      | PyKey.int i =>
        if h : 0 ≤ i ∧ i < (items.length : ℤ) then
          safe_get (items.get ⟨i.toNat, by omega⟩) rest default
        else default
      | PyKey.str _ => default
    | _ => default

/-- Candidate keys a market entry is recognised by
(util/parse.py lines 59-62 and 105-108). -/
def symbol_keys : List String :=
  ["symbol", "ticker", "underlyingSymbol", "tokenSymbol",
   "asset", "name", "token", "coinSymbol", "assetSymbol"]

/-- Does this dict carry one of the candidate keys with a string value equal,
case-insensitively, to the target symbol? -/
def matchesSymbolEntry (entries : List (String × Json)) (symbol_upper : String) : Bool :=
  symbol_keys.any (fun key =>
    match objGet entries key with
    | some (Json.str v) => strUpper v = symbol_upper
    | _ => false)

mutual

/-- find_market_by_symbol (util/parse.py lines 34-84): depth-bounded search
for the first dict matching the symbol. -/
def find_market_by_symbol (obj : Json) (symbol : String) (depth_limit : ℕ)
    (current_depth : ℕ) : Option (List (String × Json)) :=
  if current_depth ≥ depth_limit then none
  else
    match obj with
    | Json.obj entries =>
      if matchesSymbolEntry entries (strUpper symbol) then some entries
      else findMarketInEntries entries symbol depth_limit (current_depth + 1)
    | Json.arr items => findMarketInItems items symbol depth_limit (current_depth + 1)
    | _ => none

/-- Walk the values of a dict (source: for value in obj.values()). -/
def findMarketInEntries (es : List (String × Json)) (symbol : String)
    (depth_limit current_depth : ℕ) : Option (List (String × Json)) :=
  match es with
  | [] => none
  | (_, v) :: rest =>
    match find_market_by_symbol v symbol depth_limit current_depth with
    | some r => some r
    | none => findMarketInEntries rest symbol depth_limit current_depth

/-- Walk the items of a list (source: for item in obj). -/
def findMarketInItems (xs : List Json) (symbol : String)
    (depth_limit current_depth : ℕ) : Option (List (String × Json)) :=
  match xs with
  | [] => none
  | x :: rest =>
    match find_market_by_symbol x symbol depth_limit current_depth with
    | some r => some r
    | none => findMarketInItems rest symbol depth_limit current_depth

end

mutual

/-- find_all_markets_by_symbol (util/parse.py lines 87-126): depth-bounded
collection of every dict matching the symbol; a matching dict is not
descended into. -/
def find_all_markets_by_symbol (obj : Json) (symbol : String) (depth_limit : ℕ)
    (current_depth : ℕ) : List (List (String × Json)) :=
  if current_depth ≥ depth_limit then []
  else
    match obj with
    | Json.obj entries =>
      if matchesSymbolEntry entries (strUpper symbol) then [entries]
      else findAllInEntries entries symbol depth_limit (current_depth + 1)
    | Json.arr items => findAllInItems items symbol depth_limit (current_depth + 1)
    | _ => []

/-- Walk the values of a dict, concatenating all matches. -/
def findAllInEntries (es : List (String × Json)) (symbol : String)
    (depth_limit current_depth : ℕ) : List (List (String × Json)) :=
  match es with
  | [] => []
  | (_, v) :: rest =>
    find_all_markets_by_symbol v symbol depth_limit current_depth
      ++ findAllInEntries rest symbol depth_limit current_depth

/-- Walk the items of a list, concatenating all matches. -/
def findAllInItems (xs : List Json) (symbol : String)
    (depth_limit current_depth : ℕ) : List (List (String × Json)) :=
  match xs with
  | [] => []
  | x :: rest =>
    find_all_markets_by_symbol x symbol depth_limit current_depth
      ++ findAllInItems rest symbol depth_limit current_depth

end

/-- normalize_rate (util/parse.py lines 129-152): parse a numeric-like value;
magnitudes at most 1.5 are fractions and are scaled by 100. -/
def normalize_rate (value : Json) : Option ℚ :=
  match value with
  | Json.null => none
  | v =>
    match pyFloat v with
    | some rate => some (if |rate| ≤ mkRat 3 2 then qMul rate (mkRat 100 1) else rate)
    | none => none

/-- format_rate (util/parse.py lines 181-211): percent string with optional
incentive breakdown. -/
def format_rate (base : Option ℚ) (incentive : Option ℚ) (is_borrow : Bool) : String :=
  match base with
  | none => "N/A"
  | some b =>
    match incentive with
    | none => formatFixed 2 b ++ "%"
    | some i =>
      if i = 0 then formatFixed 2 b ++ "%"
      else if is_borrow then
        formatFixed 2 (qSub b i) ++ "% (borrow " ++ formatFixed 2 b ++ "% - inc "
          ++ formatFixed 2 i ++ "%)"
      else
        formatFixed 2 (qAdd b i) ++ "% (base " ++ formatFixed 2 b ++ "% + inc "
          ++ formatFixed 2 i ++ "%)"

/- ===================== src/schema.py ===================== -/

/-- compact_amount (schema.py lines 7-31): K/M/B/T compact formatting,
two decimals at every tier. -/
def compact_amount (x : Option ℚ) : String :=
  match x with
  | none => "N/A"
  | some v =>
    if (1000000000000 : ℚ) ≤ v then formatFixed 2 (qDiv v 1000000000000) ++ "T"
    else if (1000000000 : ℚ) ≤ v then formatFixed 2 (qDiv v 1000000000) ++ "B"
    else if (1000000 : ℚ) ≤ v then formatFixed 2 (qDiv v 1000000) ++ "M"
    else if (1000 : ℚ) ≤ v then formatFixed 2 (qDiv v 1000) ++ "K"
    else formatFixed 2 v

/-- The canonical market record (schema.py lines 34-52). -/
structure Row where
  protocol : String
  total_supplied : Option ℚ
  supply_rate : String
  total_borrowed : Option ℚ
  borrow_rate : String
deriving DecidableEq

/- ===================== src/stablecoins.py ===================== -/

/-- DEFAULT_TOKENS (stablecoins.py line 14). -/
def DEFAULT_TOKENS : List String := ["USDT", "USDC", "USD1", "U"]

/-- get_stablecoin_by_symbol (stablecoins.py lines 46-54): first coin whose
"symbol" matches case-insensitively; comparing a non-string symbol raises. -/
def get_stablecoin_by_symbol (stablecoins : List Json) (symbol : String) :
    Except String (Option (List (String × Json))) :=
  match stablecoins with
  | [] => Except.ok none
  | c :: rest =>
    match c with
    | Json.obj ces =>
      match pyUpper ((objGet ces "symbol").getD (Json.str "")) with
      | Except.error e => Except.error e
      | Except.ok s =>
        if s = strUpper symbol then Except.ok (some ces)
        else get_stablecoin_by_symbol rest symbol
    | _ => Except.error "AttributeError"

/-- extract_circulating_value (stablecoins.py lines 57-68): None stays None,
a dict yields its peggedUSD value raw (whatever it is; None when the key is
missing), ints and floats (bools included, since Python bool is an int) are
converted with float(), anything else is None.  Json.null models Python
None throughout. -/
def extract_circulating_value (circulating_data : Json) : Json :=
  match circulating_data with
  | Json.null => Json.null
  | Json.obj es => (objGet es "peggedUSD").getD Json.null
  | Json.num q => Json.num q
  | Json.bool b => Json.num (if b then mkRat 1 1 else mkRat 0 1)
  | _ => Json.null

/-- A Python value usable as an arithmetic operand: numbers, and bools as
0/1.  Subtraction raises TypeError on anything else. -/
def toNumber : Json → Option ℚ
  | Json.num q => some q
  | Json.bool b => some (if b then mkRat 1 1 else mkRat 0 1)
  | _ => none

/-- Python `previous == 0`: numbers compare numerically, False equals 0,
every non-numeric value is unequal to 0. -/
def pyEqZero : Json → Bool
  | Json.num q => q = 0
  | Json.bool b => !b
  | _ => false

/-- calculate_percent_change (stablecoins.py lines 71-79): a None operand or
a zero previous value short-circuits to None before any arithmetic; the
subtraction raises TypeError when an operand is not numeric. -/
def calculate_percent_change (current previous : Json) : Except String (Option ℚ) :=
  match current, previous with
  | Json.null, _ => Except.ok none
  | _, Json.null => Except.ok none
  | c, p =>
    if pyEqZero p then Except.ok none
    else
      match toNumber c, toNumber p with
      | some cq, some pq =>
        Except.ok (some (pyRound2 (qMul (qDiv (qSub cq pq) pq) (mkRat 100 1))))
      | _, _ => Except.error "TypeError"

/-- Leading decimal digits making up a whole integer literal; int() on a
string accepts no point and no exponent. -/
def parseIntDigits (cs : List Char) : Option ℤ :=
  let (ds, rest) := splitDigits cs
  if ds.isEmpty then none
  else if !rest.isEmpty then none
  else some (Int.ofNat (digitsToNat ds))

/-- Model of Python int(s) on a string: an optional sign and digits.
(Surrounding whitespace and underscores are not modelled; no caller relies
on them.) -/
def parsePyIntString (s : String) : Option ℤ :=
  match s.data with
  | '+' :: rest => parseIntDigits rest
  | '-' :: rest => (parseIntDigits rest).map (fun n => -n)
  | cs => parseIntDigits cs

/-- Python int(value): floats truncate toward zero, bools are 0/1, strings
must spell an integer literal (else ValueError), anything else raises
TypeError. -/
def pyIntValue : Json → Except String ℤ
  | Json.num q => Except.ok (pyInt q)
  | Json.bool b => Except.ok (if b then 1 else 0)
  | Json.str s =>
    match parsePyIntString s with
    | some n => Except.ok n
    | none => Except.error "ValueError"
  | _ => Except.error "TypeError"

/-- The metrics dict produced by parse_stablecoin_metrics. -/
structure SCMetrics where
  symbol : Json
  market_cap_usd : Option ℤ
  change_1d_pct : Option ℚ
  change_7d_pct : Option ℚ

/-- parse_stablecoin_metrics (stablecoins.py lines 82-100): the change
computations and int(current) may raise; a None current leaves the market
cap None. -/
def parse_stablecoin_metrics (coin_data : List (String × Json)) :
    Except String SCMetrics := do
  let symbol := (objGet coin_data "symbol").getD (Json.str "UNKNOWN")
  let current := extract_circulating_value ((objGet coin_data "circulating").getD Json.null)
  let prev_day :=
    extract_circulating_value ((objGet coin_data "circulatingPrevDay").getD Json.null)
  let prev_week :=
    extract_circulating_value ((objGet coin_data "circulatingPrevWeek").getD Json.null)
  let change_1d ← calculate_percent_change current prev_day
  let change_7d ← calculate_percent_change current prev_week
  let market_cap ←
    match current with
    | Json.null => Except.ok none
    | c =>
      match pyIntValue c with
      | Except.ok n => Except.ok (some n)
      | Except.error e => Except.error e
  Except.ok ⟨symbol, market_cap, change_1d, change_7d⟩

/-- format_pct (stablecoins.py lines 103-107). -/
def format_pct (value : Option ℚ) : String :=
  match value with
  | none => ""
  | some v => formatFixed 2 v ++ "%"

/-- format_usd_compact (stablecoins.py lines 110-122): dollar-prefixed
compaction with three-decimal billions, two-decimal millions, raw below. -/
def format_usd_compact (value : Option ℤ) : String :=
  match value with
  | none => ""
  | some v =>
    if (1000000000 : ℤ) ≤ v then
      "$" ++ formatFixed 3 (qDiv (mkRat v 1) 1000000000) ++ "B"
    else if (1000000 : ℤ) ≤ v then
      "$" ++ formatFixed 2 (qDiv (mkRat v 1) 1000000) ++ "M"
    else "$" ++ toString v

/-- One formatted stablecoin report row. -/
structure StableRow where
  token : Json
  change_1d : String
  change_7d : String
  market_cap : String

/-- get_stablecoin_data (stablecoins.py lines 125-152), given the fetched
peggedAssets snapshot: tokens absent from the snapshot or without a current
circulating value produce no row. -/
def get_stablecoin_data (stablecoins : List Json) (tokens : List String) :
    Except String (List StableRow) :=
  match tokens with
  | [] => Except.ok []
  | token :: rest =>
    match get_stablecoin_by_symbol stablecoins token with
    | Except.error e => Except.error e
    | Except.ok none => get_stablecoin_data stablecoins rest
    | Except.ok (some coin_data) =>
      match parse_stablecoin_metrics coin_data with
      | Except.error e => Except.error e
      | Except.ok metrics =>
        match metrics.market_cap_usd with
        | none => get_stablecoin_data stablecoins rest
        | some cap =>
          match get_stablecoin_data stablecoins rest with
          | Except.error e => Except.error e
          | Except.ok rows =>
            Except.ok (⟨metrics.symbol,
                        format_pct metrics.change_1d_pct,
                        format_pct metrics.change_7d_pct,
                        format_usd_compact (some cap)⟩ :: rows)

/- ===================== src/main.py ===================== -/

/-- One entry of data.marketPairs in the exchange response. -/
structure MarketPair where
  marketPair : String
  volumeUsd : ℚ

/-- fetch_aster_usd1_pairs (main.py lines 49-68), given the decoded
marketPairs list: keep pairs whose label contains "USD1", reduce each to
(pair, volume), sort by volume descending (Python sort is stable). -/
def fetch_aster_usd1_pairs (pairs : List MarketPair) : List (String × ℚ) :=
  let usd1_pairs :=
    (pairs.filter (fun p => strContains p.marketPair "USD1")).map
      (fun p => (p.marketPair, p.volumeUsd))
  usd1_pairs.mergeSort (fun a b => decide (b.2 ≤ a.2))

/-- send_telegram_message (main.py lines 176-195), abstracted over the HTTP
status of the POST: true exactly on status 200. -/
def send_telegram_message (status : ℕ) : Bool := status = 200

namespace Orchestrator

/-- main (main.py lines 198-235): configuration check, then the fetch +
format + delivery attempt.  The attempt is abstracted as an Except value:
an unhandled exception anywhere in the try block is the error case, and a
completed delivery carries the POST status. -/
def main (bot_token chat_id : String) (run : Except String ℕ) : ℕ :=
  if bot_token = "" ∨ chat_id = "" then 1
  else
    match run with
    | Except.error _ => 1
    | Except.ok status => if send_telegram_message status then 0 else 1

end Orchestrator

/- ===================== src/adapters/wlfi.py ===================== -/

namespace Wlfi

/-- Protocol display name (wlfi.py line 13). -/
def PROTOCOL_NAME : String := "WLFI Markets"

/-- The degraded record produced when anything fails. -/
def degraded : Row := ⟨PROTOCOL_NAME, none, "N/A", none, "N/A"⟩

/-- Model of _format_percent (wlfi.py lines 45-47). -/
def _format_percent (fraction : ℚ) : String :=
  formatFixed 2 (qMul fraction (mkRat 100 1)) ++ "%"

/-- Model of _trpc_json (wlfi.py lines 33-42): unwrap payload, taking the head when
the payload is a list, then index result.data.json. -/
def _trpc_json (resp : Except String Json) : Except String Json := do
  let payload0 ← resp
  let payload ←
    match payload0 with
    | Json.arr items =>
      match items with
      | p :: _ => Except.ok p
      | [] => Except.error "IndexError"
    | p => Except.ok p
  let r ← pySubscript payload "result"
  let d ← pySubscript r "data"
  pySubscript d "json"

/-- Build rate_by_market (wlfi.py lines 56-62): index rate entries by
token.marketId; entries whose token is not a dict or has no marketId are
skipped; an unhashable marketId raises. -/
def buildRateByMarket : List Json → PyDict → Except String PyDict
  | [], d => Except.ok d
  | r :: rest, d => do
    let token_info ← pyGet r "token"
    match token_info with
    | some (Json.obj tentries) =>
      match (objGet tentries "marketId").getD Json.null with
      | Json.null => buildRateByMarket rest d
      | mid => do
        let k ← toHKey mid
        buildRateByMarket rest (dictInsert d k r)
    | _ => buildRateByMarket rest d

/-- Token scan (wlfi.py lines 64-72): first token whose symbol upper-cases
to USD1; tokens must be dicts and symbols strings (else the iteration
raises, caught by the outer handler). -/
def findUsd1Token : List Json → Except String (Option (List (String × Json)))
  | [] => Except.ok none
  | t :: rest =>
    match t with
    | Json.obj tes => do
      let symbol ← pyUpper (pyOr ((objGet tes "symbol").getD Json.null) (Json.str ""))
      if symbol = "USD1" then Except.ok (some tes)
      else findUsd1Token rest
    | _ => Except.error "AttributeError"

/-- Incentive accumulation (wlfi.py lines 98-112): only parts whose label or
claim URL mentions merkl, or whose label mentions wlfi rewards, count. -/
def sumIncentiveParts : List Json → ℚ → Except String ℚ
  | [], acc => Except.ok acc
  | p :: rest, acc =>
    match p with
    | Json.obj pes => do
      let label ← pyLower (pyOr ((objGet pes "label").getD Json.null) (Json.str ""))
      let claim_url ← pyLower (pyOr ((objGet pes "rewardClaimUrl").getD Json.null) (Json.str ""))
      match _to_float (objGet pes "interestRate") with
      | none => sumIncentiveParts rest acc
      | some interest_rate =>
        let is_merkl := strContains label "merkl" || strContains claim_url "merkl"
        let is_wlfi := strContains label "wlfi rewards"
        if is_merkl || is_wlfi then sumIncentiveParts rest (qAdd acc interest_rate)
        else sumIncentiveParts rest acc
    | _ => sumIncentiveParts rest acc

/-- Body of fetch_row (wlfi.py lines 50-137), inside the try block. -/
def fetch_row_body (tokensResp ratesResp : Except String Json) : Except String Row := do
  let tokens ← _trpc_json tokensResp
  let rates ← _trpc_json ratesResp
  let rateItems ← pyIter rates
  let rate_by_market ← buildRateByMarket rateItems []
  let tokenItems ← pyIter tokens
  let found ← findUsd1Token tokenItems
  match found with
  | none => Except.ok degraded
  | some tes =>
    match (objGet tes "marketId").getD Json.null with
    | Json.null => Except.ok degraded
    | mid => do
      let k ← toHKey mid
      match dictGetH rate_by_market k with
      | none =>
        Except.ok ⟨PROTOCOL_NAME,
                   _to_float (objGet tes "supplyLiquidity"), "N/A",
                   _to_float (objGet tes "borrowLiquidity"), "N/A"⟩
      | some rate_obj => do
        let supplied := _to_float (objGet tes "supplyLiquidity")
        let borrowed := _to_float (objGet tes "borrowLiquidity")
        let base_supply := _to_float (← pyGet rate_obj "supplyInterestRate")
        let borrow_rate_val := _to_float (← pyGet rate_obj "borrowInterestRate")
        let outside_parts := (← pyGet rate_obj "outsideSupplyInterestRateParts").getD (Json.arr [])
        let incentive ←
          match outside_parts with
          | Json.arr parts => sumIncentiveParts parts (mkRat 0 1)
          | _ => Except.ok (mkRat 0 1)
        let supply_rate_str :=
          match base_supply with
          | some bs =>
            if mkRat 0 1 < incentive then
              _format_percent (qAdd bs incentive) ++ " (base " ++ _format_percent bs
                ++ " + inc " ++ _format_percent incentive ++ ")"
            else _format_percent bs
          | none => "N/A"
        let borrow_rate_str :=
          match borrow_rate_val with
          | some br => _format_percent br
          | none => "N/A"
        Except.ok ⟨PROTOCOL_NAME, supplied, supply_rate_str, borrowed, borrow_rate_str⟩

/-- fetch_row (wlfi.py lines 50-146): the whole body is wrapped in
try/except, every exception degrades to the null record. -/
def fetch_row (tokensResp ratesResp : Except String Json) : Row :=
  match fetch_row_body tokensResp ratesResp with
  | Except.ok r => r
  | Except.error _ => degraded

end Wlfi

/- ===================== src/adapters/echelon.py ===================== -/

namespace Echelon

/-- Protocol display name (echelon.py line 11). -/
def PROTOCOL_NAME : String := "Echelon"

/-- The degraded record produced when anything fails. -/
def degraded : Row := ⟨PROTOCOL_NAME, none, "N/A", none, "N/A"⟩

/-- Model of _format_percent (echelon.py lines 30-32). -/
def _format_percent (fraction : ℚ) : String :=
  formatFixed 2 (qMul fraction (mkRat 100 1)) ++ "%"

/-- Build market_stats (echelon.py lines 43-48): two-element pairs become
dict entries, anything else is skipped; unhashable keys raise. -/
def buildMarketStats : List Json → PyDict → Except String PyDict
  | [], d => Except.ok d
  | pair :: rest, d =>
    match pair with
    | Json.arr [k, v] => do
      let hk ← toHKey k
      buildMarketStats rest (dictInsert d hk v)
    | _ => buildMarketStats rest d

/-- Asset scan (echelon.py lines 50-55): first dict asset whose symbol equals
USD1 exactly. -/
def findUsd1Asset : List Json → Option (List (String × Json))
  | [] => none
  | (Json.obj aes) :: rest =>
    if jsonEqStr ((objGet aes "symbol").getD Json.null) "USD1" then some aes
    else findUsd1Asset rest
  | _ :: rest => findUsd1Asset rest

/-- Farming APR summation (echelon.py lines 88-97): sum apr over dict
entries of the list. -/
def sumAprs (items : List Json) : ℚ :=
  items.foldl (fun acc i =>
    match i with
    | Json.obj ies => qAdd acc ((_to_float (objGet ies "apr")).getD (mkRat 0 1))
    | _ => acc) (mkRat 0 1)

/-- Body of fetch_row (echelon.py lines 35-124), inside the try block. -/
def fetch_row_body (resp : Except String Json) : Except String Row := do
  let root ← resp
  let data ← pySubscript root "data"
  let msRaw ← pyGetD data "marketStats" (Json.arr [])
  let msItems ← pyIter msRaw
  let market_stats ← buildMarketStats msItems []
  let assetsJ ← pyGetD data "assets" (Json.arr [])
  let assetItems ← pyIter assetsJ
  match findUsd1Asset assetItems with
  | none => Except.ok degraded
  | some aes => do
    let stats_key := pyOr ((objGet aes "faAddress").getD Json.null)
                          ((objGet aes "address").getD Json.null)
    let hk ← toHKey stats_key
    match dictGetH market_stats hk with
    | none => Except.ok degraded
    | some Json.null => Except.ok degraded
    | some stats => do
      let total_supplied := _to_float (← pyGet stats "totalShares")
      let total_borrowed := _to_float (← pyGet stats "totalLiability")
      let lend_apr := (_to_float (objGet aes "supplyApr")).getD (mkRat 0 1)
      let borrow_apr := (_to_float (objGet aes "borrowApr")).getD (mkRat 0 1)
      let fes :=
        match pyOr ((objGet aes "farmingApr").getD Json.null) (Json.obj []) with
        | Json.obj fes => fes
        | _ => []
      let supplyItems ← pyIter (pyOr ((objGet fes "supply").getD Json.null) (Json.arr []))
      let borrowItems ← pyIter (pyOr ((objGet fes "borrow").getD Json.null) (Json.arr []))
      let inc_supply := sumAprs supplyItems
      let inc_borrow := sumAprs borrowItems
      let supply_total := qAdd lend_apr inc_supply
      let borrow_effective := qSub borrow_apr inc_borrow
      let supply_rate_str :=
        if mkRat 0 1 < inc_supply then
          _format_percent supply_total ++ " (base " ++ _format_percent lend_apr
            ++ " + inc " ++ _format_percent inc_supply ++ ")"
        else _format_percent lend_apr
      let borrow_rate_str :=
        if mkRat 0 1 < inc_borrow then
          _format_percent borrow_effective ++ " (borrow " ++ _format_percent borrow_apr
            ++ " - inc " ++ _format_percent inc_borrow ++ ")"
        else _format_percent borrow_apr
      Except.ok ⟨PROTOCOL_NAME, total_supplied, supply_rate_str,
                 total_borrowed, borrow_rate_str⟩

/-- fetch_row (echelon.py lines 35-133): try/except wrapping the body. -/
def fetch_row (resp : Except String Json) : Row :=
  match fetch_row_body resp with
  | Except.ok r => r
  | Except.error _ => degraded

end Echelon

/- ===================== src/adapters/justlend.py ===================== -/

namespace Justlend

/-- Protocol display name (justlend.py line 12). -/
def PROTOCOL_NAME : String := "JustLend"

/-- The degraded record for the missing-market path. -/
def degraded : Row := ⟨PROTOCOL_NAME, none, "N/A", none, "N/A"⟩

/-- Market scan (justlend.py lines 23-28): first dict whose collateralSymbol
upper-cases to USD1; upper-casing a non-string value raises, and justlends
fetch_row has no handler for it. -/
def findUsd1Market : List Json → Except String (Option (List (String × Json)))
  | [] => Except.ok none
  | a :: rest =>
    match a with
    | Json.obj aes => do
      let symbol ← pyUpper ((objGet aes "collateralSymbol").getD (Json.str ""))
      if symbol = "USD1" then Except.ok (some aes)
      else findUsd1Market rest
    | _ => findUsd1Market rest

/-- Model of _extract_usd_amount (justlend.py lines 53-61). -/
def _extract_usd_amount (market : List (String × Json)) (key : String) : Option ℚ :=
  match objGet market key with
  | some Json.null => none
  | some v => pyFloat v
  | none => none

/-- Model of _extract_supply_rate (justlend.py lines 64-76): depositedAPY as base,
underlyingIncrementApy as incentive unless it is None or the string "0". -/
def _extract_supply_rate (market : List (String × Json)) : String :=
  let base_rate :=
    match (objGet market "depositedAPY").getD Json.null with
    | Json.null => none
    | v => normalize_rate v
  let incentive_rate :=
    match (objGet market "underlyingIncrementApy").getD Json.null with
    | Json.null => none
    | v => if jsonEqStr v "0" then none else normalize_rate v
  format_rate base_rate incentive_rate false

/-- Model of _extract_borrow_rate (justlend.py lines 79-86). -/
def _extract_borrow_rate (market : List (String × Json)) : String :=
  let base_rate :=
    match (objGet market "borrowedAPY").getD Json.null with
    | Json.null => none
    | v => normalize_rate v
  format_rate base_rate none false

/-- fetch_row (justlend.py lines 16-50).  Unlike every other adapter there is
no try/except around the body: an exception from the fetch (exhausted
retries), from iterating a non-list assetList, or from upper-casing a
non-string collateralSymbol propagates to the caller. -/
def fetch_row (resp : Except String Json) : Except String Row := do
  let data ← resp
  let asset_list := safe_get data [PyKey.str "data", PyKey.str "assetList"] (Json.arr [])
  let items ← pyIter asset_list
  let usd1_market ← findUsd1Market items
  match usd1_market with
  | none => Except.ok degraded
  | some mes =>
    Except.ok ⟨PROTOCOL_NAME,
               _extract_usd_amount mes "depositedUSD",
               _extract_supply_rate mes,
               _extract_usd_amount mes "borrowedUSD",
               _extract_borrow_rate mes⟩

end Justlend

/- ===================== src/adapters/kamino.py ===================== -/

namespace Kamino

/-- Protocol display name (kamino.py line 18). -/
def PROTOCOL_NAME : String := "Kamino"

/-- The degraded record produced when anything fails. -/
def degraded : Row := ⟨PROTOCOL_NAME, none, "N/A", none, "N/A"⟩

/-- Reserve scan (kamino.py lines 68-72): the first dict reserve whose
liquidityToken equals USD1 contributes its totalBorrow (defaulted to 0). -/
def findUsd1Reserve : List Json → Option ℚ
  | [] => none
  | (Json.obj res) :: rest =>
    if jsonEqStr ((objGet res "liquidityToken").getD Json.null) "USD1" then
      some ((_to_float (objGet res "totalBorrow")).getD (mkRat 0 1))
    else findUsd1Reserve rest
  | _ :: rest => findUsd1Reserve rest

/-- One lending-market iteration (kamino.py lines 61-74): a failed fetch is
skipped (inner except on the request error), but a malformed body makes the
iteration raise out to the outer handler. -/
def marketBorrow (resp : Except String Json) (acc : ℚ) : Except String ℚ :=
  match resp with
  | Except.error _ => Except.ok acc
  | Except.ok reserves => do
    let items ← pyIter reserves
    match findUsd1Reserve items with
    | some tb => Except.ok (qAdd acc tb)
    | none => Except.ok acc

/-- Body of fetch_row (kamino.py lines 37-84), inside the try block.  The
three market responses follow the fixed MARKETS order (Main, Maple, JLP). -/
def fetch_row_body (vaultResp mainResp mapleResp jlpResp : Except String Json) :
    Except String Row := do
  let m ← vaultResp
  let tokens_available := (_to_float (← pyGet m "tokensAvailableUsd")).getD (mkRat 0 1)
  let tokens_invested := (_to_float (← pyGet m "tokensInvestedUsd")).getD (mkRat 0 1)
  let total_supplied_usd := qAdd tokens_available tokens_invested
  let lend_apy := qMul ((_to_float (← pyGet m "apy")).getD (mkRat 0 1)) (mkRat 100 1)
  let wlfi_apy := qMul ((_to_float (← pyGet m "apyFarmRewards")).getD (mkRat 0 1)) (mkRat 100 1)
  let kmno_apy := qMul ((_to_float (← pyGet m "apyIncentives")).getD (mkRat 0 1)) (mkRat 100 1)
  let combined_apy := qAdd (qAdd lend_apy wlfi_apy) kmno_apy
  let supply_rate_str :=
    formatFixed 2 combined_apy ++ "% (lend " ++ formatFixed 2 lend_apy
      ++ "% + WLFI " ++ formatFixed 2 wlfi_apy ++ "% + KMNO " ++ formatFixed 2 kmno_apy ++ "%)"
  let tot1 ← marketBorrow mainResp (mkRat 0 1)
  let tot2 ← marketBorrow mapleResp tot1
  let tot_borrow ← marketBorrow jlpResp tot2
  let borrow_rate_str := formatFixed 2 lend_apy ++ "%"
  Except.ok ⟨PROTOCOL_NAME, some total_supplied_usd, supply_rate_str,
             some tot_borrow, borrow_rate_str⟩

/-- fetch_row (kamino.py lines 37-93): try/except wrapping the body. -/
def fetch_row (vaultResp mainResp mapleResp jlpResp : Except String Json) : Row :=
  match fetch_row_body vaultResp mainResp mapleResp jlpResp with
  | Except.ok r => r
  | Except.error _ => degraded

end Kamino

/- ===================== src/adapters/lista.py ===================== -/

namespace Lista

/-- Protocol display name (lista.py line 12). -/
def PROTOCOL_NAME : String := "Lista"

/-- Target vault address constant (lista.py line 13). -/
def TARGET_VAULT_ADDRESS : String := "0xfa27f172e0b6ebcef9c51abf817e2cb142fbe627"

/-- TOP_N_MARKETS (lista.py line 16). -/
def TOP_N_MARKETS : ℕ := 5

/-- The degraded record produced when anything fails. -/
def degraded : Row := ⟨PROTOCOL_NAME, none, "N/A", none, "N/A"⟩

/-- Model of _format_percent (lista.py lines 29-31). -/
def _format_percent (fraction : ℚ) : String :=
  formatFixed 2 (qMul fraction (mkRat 100 1)) ++ "%"

/-- Model of _find_usd1_vault (lista.py lines 34-45): first vault matching by address
or by asset symbol; vault.get on a non-dict raises. -/
def _find_usd1_vault : List Json → Except String (Option (List (String × Json)))
  | [] => Except.ok none
  | v :: rest =>
    match v with
    | Json.obj ves => do
      let address ← pyLower (pyOr ((objGet ves "address").getD Json.null) (Json.str ""))
      let asset_symbol ← pyUpper (pyOr ((objGet ves "assetSymbol").getD Json.null) (Json.str ""))
      if address = strLower TARGET_VAULT_ADDRESS then Except.ok (some ves)
      else if asset_symbol = "USD1" then Except.ok (some ves)
      else _find_usd1_vault rest
    | _ => Except.error "AttributeError"

/-- Minimum of a rate list, first minimal element (Python min). -/
def listMinQ : List ℚ → ℚ
  | [] => mkRat 0 1
  | x :: rest => rest.foldl (fun a b => if b < a then b else a) x

/-- Maximum of a rate list, first maximal element (Python max). -/
def listMaxQ : List ℚ → ℚ
  | [] => mkRat 0 1
  | x :: rest => rest.foldl (fun a b => if a < b then b else a) x

/-- Collect (allocation, borrowRate) pairs (lista.py lines 53-62); m.get on
a non-dict raises. -/
def collectParsed : List Json → List (ℚ × ℚ) → Except String (List (ℚ × ℚ))
  | [], acc => Except.ok acc
  | m :: rest, acc =>
    match m with
    | Json.obj mes =>
      match _to_float (objGet mes "allocation"), _to_float (objGet mes "borrowRate") with
      | some a, some b => collectParsed rest (acc ++ [(a, b)])
      | _, _ => collectParsed rest acc
    | _ => Except.error "AttributeError"

/-- Model of _compute_borrow_rate_range (lista.py lines 48-77): stable sort by
allocation descending, take the top five, render min-max as percents. -/
def _compute_borrow_rate_range (markets : Json) (top_n : ℕ) : Except String String :=
  if pyFalsy markets then Except.ok "N/A"
  else do
    let items ← pyIter markets
    let parsed ← collectParsed items []
    if parsed.isEmpty then Except.ok "N/A"
    else
      let sorted := parsed.mergeSort (fun x y => decide (y.1 ≤ x.1))
      let top_markets := sorted.take top_n
      let borrow_rates := top_markets.map (fun x => x.2)
      if borrow_rates.isEmpty then Except.ok "N/A"
      else
        Except.ok (formatFixed 2 (qMul (listMinQ borrow_rates) (mkRat 100 1)) ++ "%-"
          ++ formatFixed 2 (qMul (listMaxQ borrow_rates) (mkRat 100 1)) ++ "%")

/-- Body of fetch_row (lista.py lines 80-125), inside the try block. -/
def fetch_row_body (vaultListResp allocResp : Except String Json) : Except String Row := do
  let vault_data ← vaultListResp
  let dataJ ← pyGetD vault_data "data" (Json.obj [])
  let listJ ← pyGetD dataJ "list" (Json.arr [])
  let vaultItems ← pyIter listJ
  let usd1_vault ← _find_usd1_vault vaultItems
  match usd1_vault with
  | none => Except.ok degraded
  | some ves => do
    let deposits := _to_float (objGet ves "deposits")
    let apy := _to_float (objGet ves "apy")
    let utilization := _to_float (objGet ves "utilization")
    let total_borrowed :=
      match deposits, utilization with
      | some d, some u => some (qMul d u)
      | _, _ => none
    let supply_rate_str :=
      match apy with
      | some a => _format_percent a
      | none => "N/A"
    let allocation_data ← allocResp
    let allocDataJ ← pyGetD allocation_data "data" (Json.obj [])
    let marketsJ ← pyGetD allocDataJ "list" (Json.arr [])
    let borrow_rate_str ← _compute_borrow_rate_range marketsJ TOP_N_MARKETS
    Except.ok ⟨PROTOCOL_NAME, deposits, supply_rate_str, total_borrowed, borrow_rate_str⟩

/-- fetch_row (lista.py lines 80-134): try/except wrapping the body. -/
def fetch_row (vaultListResp allocResp : Except String Json) : Row :=
  match fetch_row_body vaultListResp allocResp with
  | Except.ok r => r
  | Except.error _ => degraded

end Lista

/- ===================== Bridge lemmas ===================== -/

/-- qAdd is rational addition. -/
theorem qAdd_eq (a b : ℚ) : qAdd a b = a + b := (Rat.add_def' a b).symm

/-- qSub is rational subtraction. -/
theorem qSub_eq (a b : ℚ) : qSub a b = a - b := (Rat.sub_def' a b).symm

/-- qMul is rational multiplication. -/
theorem qMul_eq (a b : ℚ) : qMul a b = a * b := (Rat.mul_eq_mkRat a b).symm

/-- qDiv is rational division. -/
theorem qDiv_eq (a b : ℚ) : qDiv a b = a / b := (Rat.div_def' a b).symm

/-- qNeg is rational negation. -/
theorem qNeg_eq (a : ℚ) : qNeg a = -a := by
  rw [qNeg, ← Rat.neg_mkRat, Rat.mkRat_self]

/-- Numeral bridge: mkRat 100 1 is 100. -/
theorem mkRat_hundred : (mkRat 100 1 : ℚ) = 100 := by
  norm_num [Rat.mkRat_eq_div]

/-- Numeral bridge: mkRat 3 2 is the 1.5 threshold. -/
theorem mkRat_three_halves : (mkRat 3 2 : ℚ) = 3 / 2 := by
  norm_num [Rat.mkRat_eq_div]

/-- Numeral bridge: mkRat 0 1 is 0. -/
theorem mkRat_zero_one : (mkRat 0 1 : ℚ) = 0 := by
  norm_num [Rat.mkRat_eq_div]

/-- normalize_rate on any value that parses: threshold comparison on the
parsed rational. -/
theorem normalize_rate_of_pyFloat {v : Json} {q : ℚ} (h : pyFloat v = some q) :
    normalize_rate v = some (if |q| ≤ mkRat 3 2 then qMul q (mkRat 100 1) else q) := by
  cases v <;> simp_all [normalize_rate, pyFloat]

/-- normalize_rate on any value that fails to parse is none. -/
theorem normalize_rate_of_not_pyFloat {v : Json} (h : pyFloat v = none) :
    normalize_rate v = none := by
  cases v <;> simp_all [normalize_rate, pyFloat]

/- ===================== C2 ===================== -/

/-- C2: normalize_rate multiplies parsed values of magnitude at most 1.5 by
100 (0.0773 to 7.73, boundary 1.5 to 150), leaves larger magnitudes
unchanged (7.73 stays 7.73), and returns none for None and for unparsable
strings such as "abc". -/
theorem C2_normalize_rate_spec :
    (∀ (v : Json) (q : ℚ), pyFloat v = some q → |q| ≤ 3 / 2 →
        normalize_rate v = some (q * 100))
  ∧ (∀ (v : Json) (q : ℚ), pyFloat v = some q → 3 / 2 < |q| →
        normalize_rate v = some q)
  ∧ (∀ v : Json, pyFloat v = none → normalize_rate v = none)
  ∧ normalize_rate (Json.num (mkRat 773 10000)) = some (mkRat 773 100)
  ∧ normalize_rate (Json.num (mkRat 773 100)) = some (mkRat 773 100)
  ∧ normalize_rate (Json.num (mkRat 3 2)) = some 150
  ∧ normalize_rate Json.null = none
  ∧ normalize_rate (Json.str "abc") = none := by
  refine ⟨?_, ?_, ?_, by decide, by decide, by decide, rfl, by decide⟩
  · intro v q h hle
    rw [normalize_rate_of_pyFloat h, if_pos (by rw [mkRat_three_halves]; exact hle),
      qMul_eq, mkRat_hundred]
  · intro v q h hgt
    rw [normalize_rate_of_pyFloat h,
      if_neg (by rw [mkRat_three_halves]; exact not_le.mpr hgt)]
  · intro v h
    exact normalize_rate_of_not_pyFloat h

/-- C2 witness: 0.0773 parses, is below the threshold, and normalizes to
0.0773 * 100. -/
theorem C2_normalize_rate_spec_witness :
    normalize_rate (Json.num (mkRat 773 10000)) = some (mkRat 773 10000 * 100) :=
  C2_normalize_rate_spec.1 (Json.num (mkRat 773 10000)) (mkRat 773 10000) rfl
    (by rw [Rat.mkRat_eq_div, abs_of_nonneg (by norm_num)]; norm_num)

/- ===================== C3 ===================== -/

/-- C3: format_rate renders a null base as "N/A"; a null or zero incentive
as the plain two-decimal percent; a non-zero incentive as base plus
incentive with a breakdown suffix on the supply side and base minus
incentive on the borrow side; including the two concrete renderings from
the spec. -/
theorem C3_format_rate_spec :
    (∀ i ib, format_rate none i ib = "N/A")
  ∧ (∀ b ib, format_rate (some b) none ib = formatFixed 2 b ++ "%")
  ∧ (∀ b ib, format_rate (some b) (some 0) ib = formatFixed 2 b ++ "%")
  ∧ (∀ b i, i ≠ 0 → format_rate (some b) (some i) false
      = formatFixed 2 (b + i) ++ "% (base " ++ formatFixed 2 b ++ "% + inc "
          ++ formatFixed 2 i ++ "%)")
  ∧ (∀ b i, i ≠ 0 → format_rate (some b) (some i) true
      = formatFixed 2 (b - i) ++ "% (borrow " ++ formatFixed 2 b ++ "% - inc "
          ++ formatFixed 2 i ++ "%)")
  ∧ format_rate (some (mkRat 293 100)) (some (mkRat 481 100)) false
      = "7.74% (base 2.93% + inc 4.81%)"
  ∧ format_rate (some 10) (some 2) true = "8.00% (borrow 10.00% - inc 2.00%)"
  ∧ format_rate none none false = "N/A" := by
  refine ⟨fun i ib => rfl, fun b ib => rfl, ?_, ?_, ?_, by decide, by decide, rfl⟩
  · intro b ib
    simp [format_rate]
  · intro b i h
    simp only [format_rate, if_neg h, Bool.false_eq_true, if_false, qAdd_eq]
  · intro b i h
    simp only [format_rate, if_neg h, if_true, qSub_eq]

/-- C3 witness: the supply-side breakdown at the concrete spec values. -/
theorem C3_format_rate_spec_witness :
    format_rate (some (mkRat 293 100)) (some (mkRat 481 100)) false
      = formatFixed 2 (mkRat 293 100 + mkRat 481 100) ++ "% (base "
          ++ formatFixed 2 (mkRat 293 100) ++ "% + inc "
          ++ formatFixed 2 (mkRat 481 100) ++ "%)" :=
  C3_format_rate_spec.2.2.2.1 (mkRat 293 100) (mkRat 481 100) (by decide)

/- ===================== C4 ===================== -/

/-- C4: compact_amount formats None as "N/A", picks the largest of the
T/B/M/K thresholds the value reaches, divides by it and renders with two
decimals plus the suffix letter, and renders values below one thousand
bare with two decimals; with the four concrete spec examples. -/
theorem C4_compact_amount_spec :
    compact_amount none = "N/A"
  ∧ (∀ v : ℚ, (10:ℚ)^12 ≤ v →
      compact_amount (some v) = formatFixed 2 (v / 10^12) ++ "T")
  ∧ (∀ v : ℚ, (10:ℚ)^9 ≤ v → v < 10^12 →
      compact_amount (some v) = formatFixed 2 (v / 10^9) ++ "B")
  ∧ (∀ v : ℚ, (10:ℚ)^6 ≤ v → v < 10^9 →
      compact_amount (some v) = formatFixed 2 (v / 10^6) ++ "M")
  ∧ (∀ v : ℚ, (10:ℚ)^3 ≤ v → v < 10^6 →
      compact_amount (some v) = formatFixed 2 (v / 10^3) ++ "K")
  ∧ (∀ v : ℚ, v < 10^3 → compact_amount (some v) = formatFixed 2 v)
  ∧ compact_amount (some 999) = "999.00"
  ∧ compact_amount (some 1500) = "1.50K"
  ∧ compact_amount (some 2500000) = "2.50M"
  ∧ compact_amount (some 3200000000) = "3.20B" := by
  refine ⟨rfl, ?_, ?_, ?_, ?_, ?_, by decide, by decide, by decide, by decide⟩
  · intro v h
    rw [compact_amount, if_pos (by norm_num at h ⊢; linarith), qDiv_eq]
    norm_num
  · intro v h1 h2
    rw [compact_amount, if_neg (by norm_num at h2 ⊢; linarith),
      if_pos (by norm_num at h1 ⊢; linarith), qDiv_eq]
    norm_num
  · intro v h1 h2
    rw [compact_amount, if_neg (by norm_num at h2 ⊢; linarith),
      if_neg (by norm_num at h2 ⊢; linarith),
      if_pos (by norm_num at h1 ⊢; linarith), qDiv_eq]
    norm_num
  · intro v h1 h2
    rw [compact_amount, if_neg (by norm_num at h2 ⊢; linarith),
      if_neg (by norm_num at h2 ⊢; linarith),
      if_neg (by norm_num at h2 ⊢; linarith),
      if_pos (by norm_num at h1 ⊢; linarith), qDiv_eq]
    norm_num
  · intro v h
    rw [compact_amount, if_neg (by norm_num at h ⊢; linarith),
      if_neg (by norm_num at h ⊢; linarith),
      if_neg (by norm_num at h ⊢; linarith),
      if_neg (by norm_num at h ⊢; linarith)]

/-- C4 witness: 1500 sits in the K tier and renders as 1500/1000 with two
decimals and the K suffix. -/
theorem C4_compact_amount_spec_witness :
    compact_amount (some 1500) = formatFixed 2 ((1500:ℚ) / 10^3) ++ "K" :=
  C4_compact_amount_spec.2.2.2.2.1 1500 (by norm_num) (by norm_num)

/- ===================== C5 ===================== -/

/-- C5: the stablecoin market-cap formatter renders billions with three
decimals and a B suffix, millions with two decimals and an M suffix, and
smaller values as the bare dollar amount, all with a dollar prefix; its
precision deliberately differs from compact_amount, which uses two decimals
at every tier (3456789012 renders as $3.457B there but 3.46B here). -/
theorem C5_format_usd_compact_spec :
    (∀ v : ℤ, 10^9 ≤ v →
      format_usd_compact (some v) = "$" ++ formatFixed 3 ((v:ℚ) / 10^9) ++ "B")
  ∧ (∀ v : ℤ, 10^6 ≤ v → v < 10^9 →
      format_usd_compact (some v) = "$" ++ formatFixed 2 ((v:ℚ) / 10^6) ++ "M")
  ∧ (∀ v : ℤ, v < 10^6 → format_usd_compact (some v) = "$" ++ toString v)
  ∧ format_usd_compact (some 3456789012) = "$3.457B"
  ∧ compact_amount (some 3456789012) = "3.46B"
  ∧ format_usd_compact (some 2500000) = "$2.50M"
  ∧ compact_amount (some 2500000) = "2.50M"
  ∧ format_usd_compact (some 999999) = "$999999" := by
  refine ⟨?_, ?_, ?_, by decide, by decide, by decide, by decide, by decide⟩
  · intro v h
    rw [format_usd_compact, if_pos (by norm_num at h ⊢; linarith), qDiv_eq,
      Rat.mkRat_one]
    norm_num
  · intro v h1 h2
    rw [format_usd_compact, if_neg (by norm_num at h2 ⊢; linarith),
      if_pos (by norm_num at h1 ⊢; linarith), qDiv_eq, Rat.mkRat_one]
    norm_num
  · intro v h
    rw [format_usd_compact, if_neg (by norm_num at h ⊢; linarith),
      if_neg (by norm_num at h ⊢; linarith)]

/-- C5 witness: the billions branch at the concrete contrast value. -/
theorem C5_format_usd_compact_spec_witness :
    format_usd_compact (some 3456789012) = "$" ++ formatFixed 3 ((3456789012:ℚ) / 10^9) ++ "B" :=
  C5_format_usd_compact_spec.1 3456789012 (by norm_num)

/- ===================== C7 ===================== -/

/-- C7: the process exits 0 exactly when both configuration values are
non-empty, no exception escaped the run, and the delivery POST returned
status 200; missing configuration, a raised exception, or a non-200
delivery status all exit 1. -/
theorem C7_main_exit_codes :
    (∀ bt ci run, Orchestrator.main bt ci run = 0 ↔
        (bt ≠ "" ∧ ci ≠ "" ∧ run = Except.ok 200))
  ∧ (∀ ci run, Orchestrator.main "" ci run = 1)
  ∧ (∀ bt run, Orchestrator.main bt "" run = 1)
  ∧ (∀ bt ci e, Orchestrator.main bt ci (Except.error e) = 1)
  ∧ (∀ bt ci s, s ≠ 200 → Orchestrator.main bt ci (Except.ok s) = 1) := by
  refine ⟨?_, ?_, ?_, ?_, ?_⟩
  · intro bt ci run
    by_cases hbt : bt = ""
    · simp [Orchestrator.main, hbt]
    · by_cases hci : ci = ""
      · simp [Orchestrator.main, hci]
      · cases run with
        | error e => simp [Orchestrator.main, hbt, hci]
        | ok s =>
          by_cases hs : s = 200
          · subst hs
            simp [Orchestrator.main, hbt, hci, send_telegram_message]
          · simp [Orchestrator.main, hbt, hci, send_telegram_message, hs]
  · intro ci run
    simp [Orchestrator.main]
  · intro bt run
    simp [Orchestrator.main]
  · intro bt ci e
    by_cases hbt : bt = "" <;> by_cases hci : ci = "" <;>
      simp [Orchestrator.main, hbt, hci]
  · intro bt ci s hs
    by_cases hbt : bt = "" <;> by_cases hci : ci = "" <;>
      simp [Orchestrator.main, hbt, hci, send_telegram_message, hs]

/-- C7 witness: a rejected delivery (status 500) with configuration present
exits 1. -/
theorem C7_main_exit_codes_witness :
    Orchestrator.main "token" "chat" (Except.ok 500) = 1 :=
  C7_main_exit_codes.2.2.2.2 "token" "chat" 500 (by decide)

/- ===================== C9 ===================== -/

/-- C9: safe_get is total and steps as the source does: an exhausted key
list returns the current value, a null current value returns the default,
a dict is read with a defaulting lookup, a list is indexed only by an
in-bounds integer key (default otherwise), and any scalar returns the
default. -/
theorem C9_safe_get_total :
    (∀ obj d, safe_get obj [] d = obj)
  ∧ (∀ k ks d, safe_get Json.null (k :: ks) d = d)
  ∧ (∀ entries s ks d, safe_get (Json.obj entries) (PyKey.str s :: ks) d
      = safe_get ((objGet entries s).getD d) ks d)
  ∧ (∀ entries i ks d, safe_get (Json.obj entries) (PyKey.int i :: ks) d
      = safe_get d ks d)
  ∧ (∀ items i ks d (h : 0 ≤ i ∧ i < (items.length:ℤ)),
      safe_get (Json.arr items) (PyKey.int i :: ks) d
        = safe_get (items.get ⟨i.toNat, by omega⟩) ks d)
  ∧ (∀ items i ks d, ¬(0 ≤ i ∧ i < (items.length:ℤ)) →
      safe_get (Json.arr items) (PyKey.int i :: ks) d = d)
  ∧ (∀ items s ks d, safe_get (Json.arr items) (PyKey.str s :: ks) d = d)
  ∧ (∀ b k ks d, safe_get (Json.bool b) (k :: ks) d = d)
  ∧ (∀ q k ks d, safe_get (Json.num q) (k :: ks) d = d)
  ∧ (∀ s k ks d, safe_get (Json.str s) (k :: ks) d = d) := by
  refine ⟨fun obj d => rfl, fun k ks d => rfl, fun entries s ks d => rfl,
          fun entries i ks d => rfl, ?_, ?_, ?_, ?_, ?_, ?_⟩
  · intro items i ks d h
    simp only [safe_get, dif_pos h]
  · intro items i ks d h
    simp only [safe_get, dif_neg h]
  · intro items s ks d
    cases ks <;> rfl
  · intro b k ks d
    cases k <;> rfl
  · intro q k ks d
    cases k <;> rfl
  · intro s k ks d
    cases k <;> rfl

/-- C9 witness: an in-bounds list index steps into the element. -/
theorem C9_safe_get_total_witness :
    safe_get (Json.arr [Json.num (mkRat 5 1)]) [PyKey.int 0] Json.null
      = safe_get (Json.num (mkRat 5 1)) [] Json.null :=
  C9_safe_get_total.2.2.2.2.1 [Json.num (mkRat 5 1)] 0 [] Json.null (by constructor <;> decide)

/- ===================== C6 ===================== -/

/-- C6: the exchange-pairs fetch returns exactly the pairs whose label
contains "USD1", reduced to (label, 24h USD volume), as a permutation of
the filtered input (so nothing is truncated), sorted descending by
volume. -/
theorem C6_fetch_aster_usd1_pairs_spec (pairs : List MarketPair) :
    (fetch_aster_usd1_pairs pairs).Perm
      ((pairs.filter (fun p => strContains p.marketPair "USD1")).map
        (fun p => (p.marketPair, p.volumeUsd)))
  ∧ (fetch_aster_usd1_pairs pairs).Pairwise (fun a b => b.2 ≤ a.2) := by
  constructor
  · simp only [fetch_aster_usd1_pairs]
    exact List.mergeSort_perm _ _
  · simp only [fetch_aster_usd1_pairs]
    have h := @List.sorted_mergeSort (String × ℚ) (fun a b => decide (b.2 ≤ a.2))
      (fun a b c hab hbc => by
        simp only [decide_eq_true_eq] at *
        exact le_trans hbc hab)
      (fun a b => by
        simp only [Bool.or_eq_true, decide_eq_true_eq]
        exact le_total b.2 a.2)
      ((pairs.filter (fun p => strContains p.marketPair "USD1")).map
        (fun p => (p.marketPair, p.volumeUsd)))
    exact h.imp (fun hab => by simpa using hab)

/- ===================== C10 ===================== -/

/-- The stablecoin market-cap string always begins with a dollar sign and is
never empty. -/
theorem format_usd_compact_some_ne_empty (v : ℤ) : format_usd_compact (some v) ≠ "" := by
  rw [format_usd_compact]
  split_ifs <;> intro h <;> exact List.noConfusion (congrArg String.data h)

/-- C10: a requested token produces no stablecoin row not only when its
symbol is absent from the snapshot but also when it is found with no
current circulating value (a None current, so a null market cap);
consequently every returned row carries a non-empty formatted market-cap
string. -/
theorem C10_stablecoin_rows_spec :
    (∀ coins tokens rows, get_stablecoin_data coins tokens = Except.ok rows →
        ∀ row ∈ rows, row.market_cap ≠ "")
  ∧ (∀ coins token ces,
        get_stablecoin_by_symbol coins token = Except.ok (some ces) →
        extract_circulating_value ((objGet ces "circulating").getD Json.null) = Json.null →
        get_stablecoin_data coins [token] = Except.ok []) := by
  constructor
  · intro coins tokens
    induction tokens with
    | nil =>
      intro rows h row hrow
      simp only [get_stablecoin_data] at h
      cases h
      simp at hrow
    | cons t ts ih =>
      intro rows h row hrow
      simp only [get_stablecoin_data] at h
      cases hfind : get_stablecoin_by_symbol coins t with
      | error e =>
        simp only [hfind] at h
        exact Except.noConfusion h
      | ok o =>
        simp only [hfind] at h
        cases o with
        | none => exact ih rows h row hrow
        | some ces =>
          cases hparse : parse_stablecoin_metrics ces with
          | error e =>
            simp only [hparse] at h
            exact Except.noConfusion h
          | ok metrics =>
            simp only [hparse] at h
            cases hcap : metrics.market_cap_usd with
            | none =>
              simp only [hcap] at h
              exact ih rows h row hrow
            | some cap =>
              simp only [hcap] at h
              cases hrec : get_stablecoin_data coins ts with
              | error e =>
                simp only [hrec] at h
                exact Except.noConfusion h
              | ok rows0 =>
                simp only [hrec] at h
                injection h with h2
                subst h2
                rcases List.mem_cons.mp hrow with hhead | hmem
                · rw [hhead]
                  exact format_usd_compact_some_ne_empty cap
                · exact ih rows0 hrec row hmem
  · intro coins token ces hfind hext
    have hparse : parse_stablecoin_metrics ces
        = Except.ok ⟨(objGet ces "symbol").getD (Json.str "UNKNOWN"), none, none, none⟩ := by
      have hcpc : ∀ p, calculate_percent_change Json.null p = Except.ok none := by
        intro p
        cases p <;> rfl
      unfold parse_stablecoin_metrics
      rw [hext]
      dsimp only
      rw [hcpc, hcpc]
      exact rfl
    simp [get_stablecoin_data, hfind, hparse]

/-- C10 witness: a snapshot where USD1 is found without a circulating value
yields no row, and a snapshot with a circulating value yields a row with a
non-empty market-cap string. -/
theorem C10_stablecoin_rows_spec_witness :
    get_stablecoin_data [Json.obj [("symbol", Json.str "USD1")]] ["USD1"] = Except.ok []
  ∧ (⟨Json.str "USD1", "", "", "$5"⟩ : StableRow).market_cap ≠ "" := by
  constructor
  · exact C10_stablecoin_rows_spec.2 [Json.obj [("symbol", Json.str "USD1")]] "USD1"
      [("symbol", Json.str "USD1")] rfl rfl
  · exact C10_stablecoin_rows_spec.1
      [Json.obj [("symbol", Json.str "USD1"), ("circulating", Json.num (mkRat 5 1))]]
      ["USD1"] [⟨Json.str "USD1", "", "", "$5"⟩] rfl
      ⟨Json.str "USD1", "", "", "$5"⟩ (List.mem_singleton.mpr rfl)

/- ===================== C1 ===================== -/

/-- C1 (amended): the WLFI Markets, Echelon, Kamino and Lista adapters
return a Row for every upstream behavior, and return the degraded record
(null amounts, "N/A" rates) on fetch failures, malformed payloads and
missing keys; the JustLend adapter degrades on missing data but has no
try/except: a fetch-layer exception (timeout, exhausted retries) propagates
out of its fetch_row. -/
theorem C1_adapter_error_handling :
    (∀ e r2, Wlfi.fetch_row (Except.error e) r2 = Wlfi.degraded)
  ∧ (∀ t e, Wlfi.fetch_row t (Except.error e) = Wlfi.degraded)
  ∧ (∀ e, Echelon.fetch_row (Except.error e) = Echelon.degraded)
  ∧ (∀ e m1 m2 m3, Kamino.fetch_row (Except.error e) m1 m2 m3 = Kamino.degraded)
  ∧ (∀ e a, Lista.fetch_row (Except.error e) a = Lista.degraded)
  ∧ (∀ q, Echelon.fetch_row (Except.ok (Json.num q)) = Echelon.degraded)
  ∧ Echelon.fetch_row (Except.ok (Json.obj [])) = Echelon.degraded
  ∧ Wlfi.fetch_row (Except.ok (Json.obj [])) (Except.ok (Json.obj [])) = Wlfi.degraded
  ∧ (∀ e, Justlend.fetch_row (Except.error e) = Except.error e)
  ∧ Justlend.fetch_row (Except.ok (Json.obj [])) = Except.ok Justlend.degraded := by
  refine ⟨fun e r2 => rfl, ?_, fun e => rfl, fun e m1 m2 m3 => rfl, fun e a => rfl,
          fun q => rfl, rfl, rfl, fun e => rfl, rfl⟩
  intro t e
  cases t with
  | error e2 => rfl
  | ok j =>
    cases htr : Wlfi._trpc_json (Except.ok j) with
    | error e2 =>
      have hbody : Wlfi.fetch_row_body (Except.ok j) (Except.error e) = Except.error e2 := by
        unfold Wlfi.fetch_row_body
        rw [htr]
        exact rfl
      unfold Wlfi.fetch_row
      rw [hbody]
    | ok tokens =>
      have hbody : Wlfi.fetch_row_body (Except.ok j) (Except.error e) = Except.error e := by
        unfold Wlfi.fetch_row_body
        rw [htr]
        exact rfl
      unfold Wlfi.fetch_row
      rw [hbody]

/-- C1 counterexample: under an injected fetch failure (timeout or exhausted
retries) JustLend fetch_row does not return a record at all: it re-raises
the exception. -/
theorem C1_counterexample_justlend_raises :
    Justlend.fetch_row (Except.error "RequestException") = Except.error "RequestException" :=
  rfl

/- ===================== C8 ===================== -/

/-- Size-bounded simultaneous induction over the two depth-bounded finders:
any dict they return satisfies the candidate-key symbol match. -/
theorem find_market_matches_aux : ∀ n : ℕ,
    (∀ (j : Json) (s : String) (d c : ℕ) (r : List (String × Json)),
        sizeOf j ≤ n → find_market_by_symbol j s d c = some r →
        matchesSymbolEntry r (strUpper s) = true)
  ∧ (∀ (es : List (String × Json)) (s : String) (d c : ℕ) (r : List (String × Json)),
        sizeOf es ≤ n → findMarketInEntries es s d c = some r →
        matchesSymbolEntry r (strUpper s) = true)
  ∧ (∀ (xs : List Json) (s : String) (d c : ℕ) (r : List (String × Json)),
        sizeOf xs ≤ n → findMarketInItems xs s d c = some r →
        matchesSymbolEntry r (strUpper s) = true)
  ∧ (∀ (j : Json) (s : String) (d c : ℕ) (r : List (String × Json)),
        sizeOf j ≤ n → r ∈ find_all_markets_by_symbol j s d c →
        matchesSymbolEntry r (strUpper s) = true)
  ∧ (∀ (es : List (String × Json)) (s : String) (d c : ℕ) (r : List (String × Json)),
        sizeOf es ≤ n → r ∈ findAllInEntries es s d c →
        matchesSymbolEntry r (strUpper s) = true)
  ∧ (∀ (xs : List Json) (s : String) (d c : ℕ) (r : List (String × Json)),
        sizeOf xs ≤ n → r ∈ findAllInItems xs s d c →
        matchesSymbolEntry r (strUpper s) = true) := by
  intro n
  induction n using Nat.strong_induction_on with
  | _ n ih =>
    refine ⟨?_, ?_, ?_, ?_, ?_, ?_⟩
    · intro j s d c r hsz h
      rw [find_market_by_symbol.eq_def] at h
      by_cases hcd : c ≥ d
      · rw [if_pos hcd] at h
        exact Option.noConfusion h
      · rw [if_neg hcd] at h
        cases j with
        | null => exact Option.noConfusion h
        | bool b => exact Option.noConfusion h
        | num q => exact Option.noConfusion h
        | str s2 => exact Option.noConfusion h
        | obj entries =>
          dsimp only at h
          by_cases hm : matchesSymbolEntry entries (strUpper s) = true
          · rw [if_pos hm] at h
            injection h with h2
            rw [← h2]
            exact hm
          · rw [if_neg hm] at h
            refine (ih (sizeOf entries) ?_).2.1 entries s d (c + 1) r (le_refl _) h
            simp only [Json.obj.sizeOf_spec] at hsz
            omega
        | arr items =>
          refine (ih (sizeOf items) ?_).2.2.1 items s d (c + 1) r (le_refl _) h
          simp only [Json.arr.sizeOf_spec] at hsz
          omega
    · intro es s d c r hsz h
      cases es with
      | nil =>
        simp only [findMarketInEntries] at h
        exact Option.noConfusion h
      | cons e rest =>
        obtain ⟨k, v⟩ := e
        simp only [findMarketInEntries] at h
        cases hf : find_market_by_symbol v s d c with
        | some r0 =>
          rw [hf] at h
          injection h with h2
          rw [← h2]
          refine (ih (sizeOf v) ?_).1 v s d c r0 (le_refl _) hf
          simp only [List.cons.sizeOf_spec, Prod.mk.sizeOf_spec] at hsz
          omega
        | none =>
          rw [hf] at h
          refine (ih (sizeOf rest) ?_).2.1 rest s d c r (le_refl _) h
          simp only [List.cons.sizeOf_spec] at hsz
          omega
    · intro xs s d c r hsz h
      cases xs with
      | nil =>
        simp only [findMarketInItems] at h
        exact Option.noConfusion h
      | cons x rest =>
        simp only [findMarketInItems] at h
        cases hf : find_market_by_symbol x s d c with
        | some r0 =>
          rw [hf] at h
          injection h with h2
          rw [← h2]
          refine (ih (sizeOf x) ?_).1 x s d c r0 (le_refl _) hf
          simp only [List.cons.sizeOf_spec] at hsz
          omega
        | none =>
          rw [hf] at h
          refine (ih (sizeOf rest) ?_).2.2.1 rest s d c r (le_refl _) h
          simp only [List.cons.sizeOf_spec] at hsz
          omega
    · intro j s d c r hsz h
      rw [find_all_markets_by_symbol.eq_def] at h
      by_cases hcd : c ≥ d
      · rw [if_pos hcd] at h
        simp at h
      · rw [if_neg hcd] at h
        cases j with
        | null => simp at h
        | bool b => simp at h
        | num q => simp at h
        | str s2 => simp at h
        | obj entries =>
          dsimp only at h
          by_cases hm : matchesSymbolEntry entries (strUpper s) = true
          · rw [if_pos hm] at h
            rw [List.mem_singleton] at h
            rw [h]
            exact hm
          · rw [if_neg hm] at h
            refine (ih (sizeOf entries) ?_).2.2.2.2.1 entries s d (c + 1) r (le_refl _) h
            simp only [Json.obj.sizeOf_spec] at hsz
            omega
        | arr items =>
          refine (ih (sizeOf items) ?_).2.2.2.2.2 items s d (c + 1) r (le_refl _) h
          simp only [Json.arr.sizeOf_spec] at hsz
          omega
    · intro es s d c r hsz h
      cases es with
      | nil => simp [findAllInEntries] at h
      | cons e rest =>
        obtain ⟨k, v⟩ := e
        simp only [findAllInEntries] at h
        rcases List.mem_append.mp h with h1 | h2
        · refine (ih (sizeOf v) ?_).2.2.2.1 v s d c r (le_refl _) h1
          simp only [List.cons.sizeOf_spec, Prod.mk.sizeOf_spec] at hsz
          omega
        · refine (ih (sizeOf rest) ?_).2.2.2.2.1 rest s d c r (le_refl _) h2
          simp only [List.cons.sizeOf_spec] at hsz
          omega
    · intro xs s d c r hsz h
      cases xs with
      | nil => simp [findAllInItems] at h
      | cons x rest =>
        simp only [findAllInItems] at h
        rcases List.mem_append.mp h with h1 | h2
        · refine (ih (sizeOf x) ?_).2.2.2.1 x s d c r (le_refl _) h1
          simp only [List.cons.sizeOf_spec] at hsz
          omega
        · refine (ih (sizeOf rest) ?_).2.2.2.2.2 rest s d c r (le_refl _) h2
          simp only [List.cons.sizeOf_spec] at hsz
          omega

/-- C8: both finders are total by construction; once the depth counter
reaches the limit they return none (resp. the empty list) without
inspecting the object, each recursive call passing the counter plus one;
and a dict is only ever returned when one of the fixed candidate keys holds
a string equal, case-insensitively, to the target symbol. -/
theorem C8_find_market_depth_bounded :
    (∀ (j : Json) (s : String) (d c : ℕ), d ≤ c → find_market_by_symbol j s d c = none)
  ∧ (∀ (j : Json) (s : String) (d c : ℕ), d ≤ c → find_all_markets_by_symbol j s d c = [])
  ∧ (∀ (j : Json) (s : String) (d c : ℕ) (r : List (String × Json)),
      find_market_by_symbol j s d c = some r → matchesSymbolEntry r (strUpper s) = true)
  ∧ (∀ (j : Json) (s : String) (d c : ℕ) (r : List (String × Json)),
      r ∈ find_all_markets_by_symbol j s d c → matchesSymbolEntry r (strUpper s) = true) := by
  refine ⟨?_, ?_, ?_, ?_⟩
  · intro j s d c h
    rw [find_market_by_symbol.eq_def, if_pos h]
  · intro j s d c h
    rw [find_all_markets_by_symbol.eq_def, if_pos h]
  · intro j s d c r h
    exact (find_market_matches_aux (sizeOf j)).1 j s d c r (le_refl _) h
  · intro j s d c r h
    exact (find_market_matches_aux (sizeOf j)).2.2.2.1 j s d c r (le_refl _) h

/-- C8 witness: at the depth limit nothing is inspected, and a concrete
match at depth zero satisfies the candidate-key condition. -/
theorem C8_find_market_depth_bounded_witness :
    find_market_by_symbol Json.null "USD1" 6 6 = none
  ∧ find_all_markets_by_symbol Json.null "USD1" 6 7 = []
  ∧ matchesSymbolEntry [("symbol", Json.str "usd1")] (strUpper "USD1") = true := by
  refine ⟨C8_find_market_depth_bounded.1 Json.null "USD1" 6 6 (by decide),
          C8_find_market_depth_bounded.2.1 Json.null "USD1" 6 7 (by decide),
          C8_find_market_depth_bounded.2.2.1 (Json.obj [("symbol", Json.str "usd1")])
            "USD1" 6 0 [("symbol", Json.str "usd1")] ?_⟩
  rw [find_market_by_symbol.eq_def, if_neg (by decide)]
  dsimp only
  rw [if_pos (by decide)]
